import Mathlib

/- Verification of the checkpoint/experiment diff engine of the replicate
   CLI (cli/pkg/cli/diff.go).

   A Go map is modelled as an association list whose keys are pairwise
   distinct (NodupKeys); Go map indexing m[k] is alookup k m.  The Go value
   type of the diff result, a length-two slice of nullable strings, is
   modelled as List (Option String). -/

namespace Replicate

/-- Association-list lookup, modelling Go map indexing m[k]. -/
def alookup {β : Type} (k : String) : List (String × β) → Option β
  | [] => none
  | kv :: es => if k = kv.1 then some kv.2 else alookup k es

/-- A list of key-value pairs models a Go map exactly when its keys are
pairwise distinct. -/
def NodupKeys {β : Type} (l : List (String × β)) : Prop :=
  (l.map Prod.fst).Nodup

instance {β : Type} (l : List (String × β)) : Decidable (NodupKeys l) :=
  inferInstanceAs (Decidable ((l.map Prod.fst).Nodup))

/-- mapString from diff.go lines 190 to 215: takes two maps of strings and
returns a single map with two values where the values are different.  If only
one map has a key, the side without the value is marked nil (here: none). -/
def mapString (left right : List (String × String)) :
    List (String × List (Option String)) :=
  (left.filterMap fun kv =>
    match alookup kv.1 right with
    | some rv => if kv.2 ≠ rv then some (kv.1, [some kv.2, some rv]) else none
    | none => some (kv.1, [some kv.2, none])) ++
  (right.filterMap fun kv =>
    match alookup kv.1 left with
    | some _ => none
    | none => some (kv.1, [none, some kv.2]))

theorem alookup_eq_none {β : Type} (k : String) (l : List (String × β)) :
    alookup k l = none ↔ k ∉ l.map Prod.fst := by
  induction l with
  | nil => simp [alookup]
  | cons kv es ih =>
    by_cases h : k = kv.1 <;> simp [alookup, h, ih]

theorem alookup_of_mem {β : Type} {k : String} {v : β} {l : List (String × β)}
    (hl : NodupKeys l) (h : (k, v) ∈ l) : alookup k l = some v := by
  induction l with
  | nil => simp at h
  | cons kv es ih =>
    rw [NodupKeys, List.map_cons, List.nodup_cons] at hl
    rcases List.mem_cons.mp h with h1 | h1
    · rw [← h1, alookup, if_pos rfl]
    · have hk : k ≠ kv.1 := by
        intro hk
        exact hl.1 (hk ▸ (List.mem_map.mpr ⟨(k, v), h1, rfl⟩))
      rw [alookup, if_neg hk]
      exact ih hl.2 h1

theorem alookup_append {β : Type} (k : String) (l1 l2 : List (String × β)) :
    alookup k (l1 ++ l2) =
      match alookup k l1 with
      | some v => some v
      | none => alookup k l2 := by
  induction l1 with
  | nil => simp [alookup]
  | cons kv es ih =>
    by_cases h : k = kv.1 <;> simp [alookup, h, ih]

theorem alookup_filterMap_none {β : Type}
    {f : String × String → Option (String × β)}
    (hf : ∀ kv r, f kv = some r → r.1 = kv.1)
    {k : String} {l : List (String × String)}
    (h : alookup k l = none) : alookup k (l.filterMap f) = none := by
  induction l with
  | nil => rfl
  | cons kv es ih =>
    by_cases hk : k = kv.1
    · rw [alookup, if_pos hk] at h
      exact absurd h (by simp)
    · rw [alookup, if_neg hk] at h
      cases hfkv : f kv with
      | none => rw [List.filterMap_cons_none hfkv]; exact ih h
      | some r =>
        rw [List.filterMap_cons_some hfkv, alookup,
          if_neg (fun hr => hk (hr.trans (hf kv r hfkv)))]
        exact ih h

theorem alookup_filterMap_some {β : Type}
    {f : String × String → Option (String × β)}
    (hf : ∀ kv r, f kv = some r → r.1 = kv.1)
    {k : String} {v : String} {l : List (String × String)}
    (hl : NodupKeys l) (h : alookup k l = some v) :
    alookup k (l.filterMap f) = Option.map Prod.snd (f (k, v)) := by
  induction l with
  | nil => simp [alookup] at h
  | cons kv es ih =>
    rw [NodupKeys, List.map_cons, List.nodup_cons] at hl
    by_cases hk : k = kv.1
    · rw [alookup, if_pos hk] at h
      have hkv : (k, v) = kv := by
        rcases kv with ⟨a, b⟩
        cases h
        exact Prod.ext hk rfl
      cases hfkv : f kv with
      | none =>
        rw [List.filterMap_cons_none hfkv, hkv, hfkv]
        exact alookup_filterMap_none hf
          ((alookup_eq_none k es).mpr (fun hm => hl.1 (hk ▸ hm)))
      | some r =>
        rw [List.filterMap_cons_some hfkv, hkv, hfkv, alookup,
          if_pos (hk.trans (hf kv r hfkv).symm)]
        rfl
    · rw [alookup, if_neg hk] at h
      cases hfkv : f kv with
      | none => rw [List.filterMap_cons_none hfkv]; exact ih hl.2 h
      | some r =>
        rw [List.filterMap_cons_some hfkv, alookup,
          if_neg (fun hr => hk (hr.trans (hf kv r hfkv)))]
        exact ih hl.2 h

theorem keyPres_left (R : List (String × String)) :
    ∀ (kv : String × String) (r : String × List (Option String)),
      (match alookup kv.1 R with
       | some rv => if kv.2 ≠ rv then some (kv.1, [some kv.2, some rv]) else none
       | none => some (kv.1, [some kv.2, none])) = some r → r.1 = kv.1 := by
  intro kv r h
  split at h
  · split at h
    · cases h; rfl
    · cases h
  · cases h; rfl

theorem keyPres_right (L : List (String × String)) :
    ∀ (kv : String × String) (r : String × List (Option String)),
      (match alookup kv.1 L with
       | some _ => none
       | none => some (kv.1, [none, some kv.2])) = some r → r.1 = kv.1 := by
  intro kv r h
  split at h
  · cases h
  · cases h; rfl

/-- The semantic content of mapString: what looking up any key in the diff
result yields, as a function of the two lookups in the input maps. -/
theorem alookup_mapString (L R : List (String × String))
    (hL : NodupKeys L) (hR : NodupKeys R) (k : String) :
    alookup k (mapString L R) =
      match alookup k L, alookup k R with
      | some lv, some rv =>
          if lv ≠ rv then some [some lv, some rv] else none
      | some lv, none => some [some lv, none]
      | none, some rv => some [none, some rv]
      | none, none => none := by
  rw [mapString, alookup_append]
  cases hkL : alookup k L with
  | none =>
    rw [alookup_filterMap_none (keyPres_left R) hkL]
    cases hkR : alookup k R with
    | none => rw [alookup_filterMap_none (keyPres_right L) hkR]
    | some rv =>
      rw [alookup_filterMap_some (keyPres_right L) hR hkR]
      simp [hkL]
  | some lv =>
    rw [alookup_filterMap_some (keyPres_left R) hL hkL]
    cases hkR : alookup k R with
    | none => simp [hkR]
    | some rv =>
      by_cases hne : lv = rv
      · subst hne
        simp [hkR, alookup_filterMap_some (keyPres_right L) hR hkR, hkL]
      · simp [hkR, hne]

/-- Swap the two sides of a diff entry value. -/
def swapPair : List (Option String) → List (Option String)
  | [a, b] => [b, a]
  | l => l

/-- Claim C1 (amended): for maps left and right and every key k, the diff
contains k with (leftValue, rightValue) iff k is in both maps with differing
values; with (leftValue, absent) iff k is only in left; with (absent,
rightValue) iff k is only in right; and omits k entirely iff k is in neither
map or is in both maps with equal values. -/
theorem mapString_diff_characterization (L R : List (String × String))
    (hL : NodupKeys L) (hR : NodupKeys R) (k : String) :
    (∀ lv rv, alookup k (mapString L R) = some [some lv, some rv] ↔
        (alookup k L = some lv ∧ alookup k R = some rv ∧ lv ≠ rv)) ∧
    (∀ lv, alookup k (mapString L R) = some [some lv, none] ↔
        (alookup k L = some lv ∧ alookup k R = none)) ∧
    (∀ rv, alookup k (mapString L R) = some [none, some rv] ↔
        (alookup k L = none ∧ alookup k R = some rv)) ∧
    (alookup k (mapString L R) = none ↔
        ((alookup k L = none ∧ alookup k R = none) ∨
         ∃ v, alookup k L = some v ∧ alookup k R = some v)) := by
  have h := alookup_mapString L R hL hR k
  cases hkL : alookup k L with
  | none =>
    cases hkR : alookup k R with
    | none =>
      simp [hkL, hkR] at h
      simp [h, hkL, hkR]
    | some rv0 =>
      simp [hkL, hkR] at h
      simp [h, hkL, hkR]
  | some lv0 =>
    cases hkR : alookup k R with
    | none =>
      simp [hkL, hkR] at h
      simp [h, hkL, hkR]
    | some rv0 =>
      by_cases hne : lv0 = rv0
      · subst hne
        simp [hkL, hkR] at h
        simp [h, hkL, hkR]
      · simp [hkL, hkR, hne] at h
        refine ⟨?_, ?_, ?_, ?_⟩
        · intro lv rv
          constructor
          · intro heq
            rw [h] at heq
            simp only [Option.some.injEq, List.cons.injEq, and_true] at heq
            obtain ⟨h1, h2⟩ := heq
            subst h1
            subst h2
            exact ⟨rfl, rfl, hne⟩
          · rintro ⟨h1, h2, _⟩
            injection h1 with h1
            injection h2 with h2
            subst h1
            subst h2
            exact h
        · intro lv
          simp [h, hkL, hkR]
        · intro rv
          simp [h, hkL, hkR]
        · simp [h, hkL, hkR]
          exact fun he => hne he.symm

/-- Claim C1 as frozen fails at left = right = the empty map and k = "a": the
diff omits "a" although "a" is not present in both maps with equal values. -/
theorem mapString_omits_iff_counterexample :
    ¬ (alookup "a" (mapString [] []) = none ↔
        ∃ v, alookup "a" ([] : List (String × String)) = some v ∧
             alookup "a" ([] : List (String × String)) = some v) := by
  intro h
  rcases h.mp rfl with ⟨v, hv, _⟩
  exact Option.noConfusion hv

/-- Claim C6: for every map M with distinct keys, diff(M, M) is the empty
map. -/
theorem mapString_self_empty (M : List (String × String)) (hM : NodupKeys M) :
    mapString M M = [] := by
  rw [mapString, List.append_eq_nil]
  constructor
  · rw [List.filterMap_eq_nil_iff]
    intro kv hkv
    rw [alookup_of_mem hM (by rwa [Prod.mk.eta])]
    simp
  · rw [List.filterMap_eq_nil_iff]
    intro kv hkv
    rw [alookup_of_mem hM (by rwa [Prod.mk.eta])]

/-- Claim C7: the diff is symmetric up to swapping the two sides of each
entry: for every key in either map, looking it up in diff(L, R) gives the
side-swapped version of looking it up in diff(R, L). -/
theorem mapString_swap_symm (L R : List (String × String))
    (hL : NodupKeys L) (hR : NodupKeys R) (k : String)
    (_hk : k ∈ L.map Prod.fst ∨ k ∈ R.map Prod.fst) :
    alookup k (mapString L R) =
      Option.map swapPair (alookup k (mapString R L)) := by
  rw [alookup_mapString L R hL hR k, alookup_mapString R L hR hL k]
  cases hkL : alookup k L with
  | none =>
    cases hkR : alookup k R with
    | none => rfl
    | some rv => simp [swapPair]
  | some lv =>
    cases hkR : alookup k R with
    | none => simp [swapPair]
    | some rv =>
      by_cases hne : lv = rv
      · subst hne
        simp
      · simp [hne, Ne.symm hne, swapPair]

/-- Claim C10: every value stored in the map returned by mapString is a list
of length exactly two in which at least one component is non-nil, so the
unguarded index accesses in printMapDiff are in bounds and the two columns of
a diff row are never both the absent placeholder. -/
theorem mapString_entry_shape (m1 m2 : List (String × String))
    (k : String) (v : List (Option String)) (h : (k, v) ∈ mapString m1 m2) :
    v.length = 2 ∧ ¬(v.getD 0 none = none ∧ v.getD 1 none = none) := by
  rw [mapString, List.mem_append] at h
  rcases h with h | h
  · rcases List.mem_filterMap.mp h with ⟨kv, _, hf⟩
    revert hf
    split
    · split
      · intro hf
        cases hf
        simp
      · intro hf
        cases hf
    · intro hf
      cases hf
      simp
  · rcases List.mem_filterMap.mp h with ⟨kv, _, hf⟩
    revert hf
    split
    · intro hf
      cases hf
    · intro hf
      cases hf
      simp

/-- One structured line of the tabular report written to the output sink. -/
inductive Line where
  | header (label left right : String)
  | blank
  | heading (text : String)
  | row (key left right : String)
  | noDifference
deriving DecidableEq

/-- An entry of the map returned by mapString. -/
abbrev DiffEntry := String × List (Option String)

/-- The comparator passed to sort.Slice in printMapDiff: order entries by
key. -/
def keyLE (a b : DiffEntry) : Prop := a.1 ≤ b.1

/-- Strict key order on diff entries. -/
def keyLT (a b : DiffEntry) : Prop := a.1 < b.1

instance : DecidableRel keyLE :=
  fun a b => inferInstanceAs (Decidable (a.1 ≤ b.1))

instance : IsTotal DiffEntry keyLE :=
  ⟨fun a b => le_total a.1 b.1⟩

instance : IsTrans DiffEntry keyLE :=
  ⟨fun _ _ _ h1 h2 => le_trans h1 h2⟩

instance : IsAntisymm DiffEntry keyLT :=
  ⟨fun _ _ h1 h2 => absurd h2 (lt_asymm h1)⟩

/-- One row of the diff table: absent sides render as the fixed placeholder
"(not set)".  Index accesses kv.value[0] and kv.value[1] are modelled with a
default of nil; the entry-shape invariant shows the default is never used. -/
def renderRow (kv : DiffEntry) : Line :=
  Line.row kv.1
    (match kv.2.getD 0 none with
     | some s => s
     | none => "(not set)")
    (match kv.2.getD 1 none with
     | some s => s
     | none => "(not set)")

/-- The body of printMapDiff (diff.go lines 101 to 132) after the diff map
has been materialised: the enum argument is the sequence in which Go map
iteration delivers the entries of the diff, which is arbitrary.  The entries
are sorted by key and rendered; an empty diff renders the single
"(no difference)" placeholder row. -/
def printMapDiffFrom (enum : List DiffEntry) : List Line :=
  let keyVals := List.insertionSort keyLE enum
  if keyVals.length > 0 then keyVals.map renderRow
  else [Line.noDifference]

/-- printMapDiff on the two input maps, iterating the diff map in its
canonical entry order. -/
def printMapDiff (map1 map2 : List (String × String)) : List Line :=
  printMapDiffFrom (mapString map1 map2)

/-- The keys of the table rows of a rendered section, in order. -/
def rowKeys (lines : List Line) : List String :=
  lines.filterMap fun l =>
    match l with
    | Line.row k _ _ => some k
    | _ => none

theorem rowKeys_map_renderRow (l : List DiffEntry) :
    rowKeys (l.map renderRow) = l.map Prod.fst := by
  induction l with
  | nil => rfl
  | cons kv es ih =>
    simp only [List.map_cons, rowKeys, List.filterMap_cons, renderRow]
    rw [rowKeys] at ih
    rw [ih]

theorem keys_filterMap_sublist {β : Type}
    {f : String × String → Option (String × β)}
    (hf : ∀ kv r, f kv = some r → r.1 = kv.1) (l : List (String × String)) :
    ((l.filterMap f).map Prod.fst).Sublist (l.map Prod.fst) := by
  induction l with
  | nil => simp
  | cons kv es ih =>
    cases h : f kv with
    | none =>
      rw [List.filterMap_cons_none h, List.map_cons]
      exact ih.trans (List.sublist_cons_self kv.1 (es.map Prod.fst))
    | some r =>
      rw [List.filterMap_cons_some h, List.map_cons, List.map_cons,
        hf kv r h]
      exact ih.cons₂ kv.1

/-- The diff of two maps is itself a map: its keys are pairwise distinct. -/
theorem mapString_nodupKeys (L R : List (String × String))
    (hL : NodupKeys L) (hR : NodupKeys R) : NodupKeys (mapString L R) := by
  rw [NodupKeys, mapString, List.map_append]
  apply List.Nodup.append
  · exact (keys_filterMap_sublist (keyPres_left R) L).nodup hL
  · exact (keys_filterMap_sublist (keyPres_right L) R).nodup hR
  · intro k hkA hkB
    have hkL : k ∈ L.map Prod.fst :=
      (keys_filterMap_sublist (keyPres_left R) L).subset hkA
    rcases List.mem_map.mp hkB with ⟨e, he, hek⟩
    rcases List.mem_filterMap.mp he with ⟨kv, _, hf⟩
    revert hf
    split
    · intro hf
      cases hf
    · rename_i hnone
      intro hf
      cases hf
      rw [← hek] at hkL
      exact (alookup_eq_none kv.1 L).mp hnone hkL

/-- A sorted list of diff entries with pairwise distinct keys is strictly
sorted by key. -/
theorem pairwise_keyLT_of_sorted_nodup {l : List DiffEntry}
    (hs : List.Pairwise keyLE l) (hn : NodupKeys l) :
    List.Pairwise keyLT l := by
  rw [NodupKeys, List.Nodup] at hn
  have hne : List.Pairwise (fun a b : DiffEntry => a.1 ≠ b.1) l :=
    List.pairwise_map.mp hn
  exact (hs.and hne).imp fun h => lt_of_le_of_ne h.1 h.2

/-- Claim C8: the rows printed by printMapDiff appear in strictly ascending
lexicographic key order, and the rendered output does not depend on the order
in which the diff map entries are iterated. -/
theorem printMapDiff_sorted_deterministic (m1 m2 : List (String × String))
    (h1 : NodupKeys m1) (h2 : NodupKeys m2) :
    List.Pairwise (fun a b : String => a < b)
      (rowKeys (printMapDiff m1 m2)) ∧
    (∀ enum, enum.Perm (mapString m1 m2) →
      printMapDiffFrom enum = printMapDiff m1 m2) := by
  have hnd : NodupKeys (mapString m1 m2) := mapString_nodupKeys m1 m2 h1 h2
  have hsortnd : NodupKeys (List.insertionSort keyLE (mapString m1 m2)) := by
    rw [NodupKeys]
    exact (((List.perm_insertionSort keyLE (mapString m1 m2)).map
      Prod.fst).nodup_iff).mpr hnd
  have hstrict : List.Pairwise keyLT
      (List.insertionSort keyLE (mapString m1 m2)) :=
    pairwise_keyLT_of_sorted_nodup
      (List.sorted_insertionSort keyLE (mapString m1 m2)) hsortnd
  constructor
  · rw [printMapDiff, printMapDiffFrom]
    by_cases hlen : (List.insertionSort keyLE (mapString m1 m2)).length > 0
    · rw [if_pos hlen, rowKeys_map_renderRow]
      exact List.pairwise_map.mpr hstrict
    · rw [if_neg hlen]
      simp [rowKeys]
  · intro enum hperm
    rw [printMapDiff, printMapDiffFrom, printMapDiffFrom]
    have hp : (List.insertionSort keyLE enum).Perm
        (List.insertionSort keyLE (mapString m1 m2)) :=
      ((List.perm_insertionSort keyLE enum).trans hperm).trans
        (List.perm_insertionSort keyLE (mapString m1 m2)).symm
    have hsortnd2 : NodupKeys (List.insertionSort keyLE enum) := by
      rw [NodupKeys]
      exact ((hp.map Prod.fst).nodup_iff).mpr hsortnd
    have hstrict2 : List.Pairwise keyLT (List.insertionSort keyLE enum) :=
      pairwise_keyLT_of_sorted_nodup
        (List.sorted_insertionSort keyLE enum) hsortnd2
    rw [List.eq_of_perm_of_sorted hp hstrict2 hstrict]

/-- Claim C9: when the diff of the two maps is empty, printMapDiff emits
exactly the single "(no difference)" placeholder row; when the diff is
non-empty, no placeholder row appears in the output. -/
theorem printMapDiff_empty_placeholder (m1 m2 : List (String × String)) :
    (mapString m1 m2 = [] → printMapDiff m1 m2 = [Line.noDifference]) ∧
    (mapString m1 m2 ≠ [] → Line.noDifference ∉ printMapDiff m1 m2) := by
  constructor
  · intro h
    rw [printMapDiff, h]
    rfl
  · intro h
    rw [printMapDiff, printMapDiffFrom]
    have hlen : (List.insertionSort keyLE (mapString m1 m2)).length > 0 := by
      rw [(List.perm_insertionSort keyLE (mapString m1 m2)).length_eq]
      exact List.length_pos.mpr h
    rw [if_pos hlen]
    intro hmem
    rcases List.mem_map.mp hmem with ⟨kv, _, hkv⟩
    rw [renderRow] at hkv
    cases hkv

/-- Modelled from the spec: a typed parameter or metric value together with
its canonical string rendering (the param package is outside the embedded
source; section 4.1 of the spec makes the formatter a total function, so only
the rendered string matters to the diff engine). -/
structure Value where
  render : String
deriving DecidableEq

/-- Modelled from the spec: a checkpoint as seen by the diff engine.  The
short identifiers are produced by the external project package and are
carried as data. -/
structure Checkpoint where
  id : String
  shortID : String
  experimentID : String
  shortExperimentID : String
  metrics : List (String × Value)
deriving DecidableEq

/-- Modelled from the spec: an experiment as seen by the diff engine. -/
structure Experiment where
  id : String
  shortID : String
  params : List (String × Value)
deriving DecidableEq

/-- The result of prefix resolution: a struct with two optional fields, of
which the resolver sets exactly one (spec section 3, Resolved Object).  The
name of the corresponding Go method ends in the word Prefix, which is
abbreviated to Pfx here. -/
structure CheckpointOrExperiment where
  checkpoint : Option Checkpoint
  experiment : Option Experiment
deriving DecidableEq

/-- Modelled from the spec: the narrow project interface consumed by the diff
engine (spec section 6); each operation may fail with an error message. -/
structure Project where
  checkpointOrExperimentFromPfx : String → Except String CheckpointOrExperiment
  experimentBestCheckpoint : String → Except String (Option Checkpoint)
  experimentLatestCheckpoint : String → Except String (Option Checkpoint)
  experimentByID : String → Except String Experiment

/-- The console.Info message emitted on a best-checkpoint fallback pick. -/
def bestPickMsg (pfx : String) : String :=
  "\"" ++ pfx ++ "\" matches an experiment, picking the best checkpoint"

/-- The console.Info message emitted on a latest-checkpoint fallback pick. -/
def latestPickMsg (pfx : String) : String :=
  "\"" ++ pfx ++ "\" is an experiment, picking the latest checkpoint"

/-- The error message for an experiment without checkpoints. -/
def emptyExperimentMsg (shortID : String) : String :=
  "Could not pick best checkpoint for experiment \"" ++ shortID ++
    "\": it does not have any checkpoints."

/-- loadCheckpoint from diff.go lines 146 to 177.  The second component of
the result collects the console.Info messages emitted, in order; the outer
Option is none exactly when the Go code would dereference a nil Experiment
pointer, which the resolver contract rules out. -/
def loadCheckpoint (proj : Project) (pfx : String) :
    Option (Except String Checkpoint × List String) :=
  match proj.checkpointOrExperimentFromPfx pfx with
  | Except.error e => some (Except.error e, [])
  | Except.ok obj =>
    match obj.checkpoint with
    | some c => some (Except.ok c, [])
    | none =>
      match obj.experiment with
      | none => none
      | some exp =>
        match proj.experimentBestCheckpoint exp.id with
        | Except.error e => some (Except.error e, [])
        | Except.ok (some checkpoint) =>
            some (Except.ok checkpoint, [bestPickMsg pfx])
        | Except.ok none =>
          match proj.experimentLatestCheckpoint exp.id with
          | Except.error e => some (Except.error e, [latestPickMsg pfx])
          | Except.ok (some checkpoint) =>
              some (Except.ok checkpoint, [latestPickMsg pfx])
          | Except.ok none =>
              some (Except.error (emptyExperimentMsg exp.shortID),
                [latestPickMsg pfx])

/-- paramMapToStringMap from diff.go lines 134 to 140: render every value. -/
def paramMapToStringMap (params : List (String × Value)) :
    List (String × String) :=
  params.map fun kv => (kv.1, kv.2.render)

/-- printDiff from diff.go lines 64 to 99.  The first component of the
result is the value returned to the caller; the second is the sequence of
lines that reaches the output sink.  All four fallible steps precede every
write, so an error leaves the sink untouched.  The outer Option is none when
loadCheckpoint would panic. -/
def printDiff (proj : Project) (pfx1 pfx2 : String) :
    Option (Except String Unit × List Line) :=
  match loadCheckpoint proj pfx1 with
  | none => none
  | some (Except.error e, _) => some (Except.error e, [])
  | some (Except.ok com1, _) =>
    match loadCheckpoint proj pfx2 with
    | none => none
    | some (Except.error e, _) => some (Except.error e, [])
    | some (Except.ok com2, _) =>
      match proj.experimentByID com1.experimentID with
      | Except.error e => some (Except.error e, [])
      | Except.ok exp1 =>
        match proj.experimentByID com2.experimentID with
        | Except.error e => some (Except.error e, [])
        | Except.ok exp2 =>
          some (Except.ok (),
            [Line.header "Checkpoint:" com1.shortID com2.shortID,
             Line.header "Experiment:" com1.shortExperimentID
               com2.shortExperimentID,
             Line.blank, Line.heading "Params"] ++
            printMapDiff (paramMapToStringMap exp1.params)
              (paramMapToStringMap exp2.params) ++
            [Line.blank, Line.heading "Metrics"] ++
            printMapDiff (paramMapToStringMap com1.metrics)
              (paramMapToStringMap com2.metrics) ++
            [Line.blank])

/-- Claim C2: when prefix resolution yields a checkpoint, loadCheckpoint
returns exactly that checkpoint with no fallback message; the theorem holds
for every project, so neither the best-checkpoint nor the latest-checkpoint
operation is consulted. -/
theorem loadCheckpoint_checkpoint_direct (proj : Project) (pfx : String)
    (obj : CheckpointOrExperiment) (c : Checkpoint)
    (hres : proj.checkpointOrExperimentFromPfx pfx = Except.ok obj)
    (hc : obj.checkpoint = some c) :
    loadCheckpoint proj pfx = some (Except.ok c, []) := by
  simp only [loadCheckpoint, hres, hc]

/-- Claim C3: when the prefix resolves to an experiment, loadCheckpoint
returns the best checkpoint when the best-checkpoint lookup yields one, and
otherwise the latest checkpoint; the informational pick notice accompanies
but never changes the returned checkpoint. -/
theorem loadCheckpoint_experiment_best_latest (proj : Project) (pfx : String)
    (obj : CheckpointOrExperiment) (exp : Experiment)
    (hres : proj.checkpointOrExperimentFromPfx pfx = Except.ok obj)
    (hc : obj.checkpoint = none)
    (hexp : obj.experiment = some exp) :
    (∀ c, proj.experimentBestCheckpoint exp.id = Except.ok (some c) →
      loadCheckpoint proj pfx = some (Except.ok c, [bestPickMsg pfx])) ∧
    (∀ c, proj.experimentBestCheckpoint exp.id = Except.ok none →
      proj.experimentLatestCheckpoint exp.id = Except.ok (some c) →
      loadCheckpoint proj pfx = some (Except.ok c, [latestPickMsg pfx])) := by
  constructor
  · intro c hbest
    simp only [loadCheckpoint, hres, hc, hexp, hbest]
  · intro c hbest hlatest
    simp only [loadCheckpoint, hres, hc, hexp, hbest, hlatest]

/-- Claim C4: when the prefix resolves to an experiment with zero checkpoints
(so both the best-checkpoint and the latest-checkpoint lookups yield none,
per the interface contract of spec section 6), loadCheckpoint returns an
error whose message names the short ID of that experiment. -/
theorem loadCheckpoint_empty_experiment_error (proj : Project) (pfx : String)
    (obj : CheckpointOrExperiment) (exp : Experiment)
    (hres : proj.checkpointOrExperimentFromPfx pfx = Except.ok obj)
    (hc : obj.checkpoint = none)
    (hexp : obj.experiment = some exp)
    (hbest : proj.experimentBestCheckpoint exp.id = Except.ok none)
    (hlatest : proj.experimentLatestCheckpoint exp.id = Except.ok none) :
    ∃ pre post log, loadCheckpoint proj pfx =
      some (Except.error (pre ++ exp.shortID ++ post), log) := by
  refine ⟨"Could not pick best checkpoint for experiment \"",
    "\": it does not have any checkpoints.", [latestPickMsg pfx], ?_⟩
  simp only [loadCheckpoint, hres, hc, hexp, hbest, hlatest,
    emptyExperimentMsg, String.append_assoc]

/-- Claim C5: if resolving either prefix fails, or fetching either resolved
checkpoint's owning experiment fails, printDiff returns that error and
writes nothing at all to the output sink. -/
theorem printDiff_error_no_output (proj : Project) (pfx1 pfx2 : String) :
    (∀ e log, loadCheckpoint proj pfx1 = some (Except.error e, log) →
      printDiff proj pfx1 pfx2 = some (Except.error e, [])) ∧
    (∀ c1 log1 e log,
      loadCheckpoint proj pfx1 = some (Except.ok c1, log1) →
      loadCheckpoint proj pfx2 = some (Except.error e, log) →
      printDiff proj pfx1 pfx2 = some (Except.error e, [])) ∧
    (∀ c1 log1 c2 log2 e,
      loadCheckpoint proj pfx1 = some (Except.ok c1, log1) →
      loadCheckpoint proj pfx2 = some (Except.ok c2, log2) →
      proj.experimentByID c1.experimentID = Except.error e →
      printDiff proj pfx1 pfx2 = some (Except.error e, [])) ∧
    (∀ c1 log1 c2 log2 exp1 e,
      loadCheckpoint proj pfx1 = some (Except.ok c1, log1) →
      loadCheckpoint proj pfx2 = some (Except.ok c2, log2) →
      proj.experimentByID c1.experimentID = Except.ok exp1 →
      proj.experimentByID c2.experimentID = Except.error e →
      printDiff proj pfx1 pfx2 = some (Except.error e, [])) := by
  refine ⟨?_, ?_, ?_, ?_⟩
  · intro e log h1
    simp only [printDiff, h1]
  · intro c1 log1 e log h1 h2
    simp only [printDiff, h1, h2]
  · intro c1 log1 c2 log2 e h1 h2 h3
    simp only [printDiff, h1, h2, h3]
  · intro c1 log1 c2 log2 exp1 e h1 h2 h3 h4
    simp only [printDiff, h1, h2, h3, h4]

/-- Sample checkpoint used by the witnesses. -/
def cpA : Checkpoint := ⟨"abc123def", "abc123d", "exp789abc", "exp789a", []⟩

/-- Sample experiment used by the witnesses. -/
def expA : Experiment := ⟨"exp789abc", "exp789a", []⟩

/-- A resolved object holding the sample experiment. -/
def objExpA : CheckpointOrExperiment := ⟨none, some expA⟩

/-- A project in which exactly the prefix "abc" resolves, to a checkpoint. -/
def projDirect : Project :=
  ⟨fun p => if p = "abc" then Except.ok ⟨some cpA, none⟩
      else Except.error ("prefix not found: " ++ p),
   fun _ => Except.error "best consulted",
   fun _ => Except.error "latest consulted",
   fun _ => Except.error "no experiment"⟩

/-- A project in which every prefix resolves to the sample experiment, whose
best checkpoint is defined. -/
def projBest : Project :=
  ⟨fun _ => Except.ok objExpA,
   fun _ => Except.ok (some cpA),
   fun _ => Except.error "latest consulted",
   fun _ => Except.error "no experiment"⟩

/-- A project in which every prefix resolves to the sample experiment, which
has no best checkpoint but a latest checkpoint. -/
def projLatest : Project :=
  ⟨fun _ => Except.ok objExpA,
   fun _ => Except.ok none,
   fun _ => Except.ok (some cpA),
   fun _ => Except.error "no experiment"⟩

/-- A project in which every prefix resolves to the sample experiment, which
has no checkpoints at all. -/
def projEmpty : Project :=
  ⟨fun _ => Except.ok objExpA,
   fun _ => Except.ok none,
   fun _ => Except.ok none,
   fun _ => Except.error "no experiment"⟩

theorem mapString_diff_characterization_witness :
    alookup "a" (mapString [("a", "1"), ("b", "3")] [("a", "2")]) =
      some [some "1", some "2"] :=
  ((mapString_diff_characterization [("a", "1"), ("b", "3")] [("a", "2")]
      (by decide) (by decide) "a").1 "1" "2").mpr ⟨rfl, rfl, by decide⟩

theorem loadCheckpoint_checkpoint_direct_witness :
    loadCheckpoint projDirect "abc" = some (Except.ok cpA, []) :=
  loadCheckpoint_checkpoint_direct projDirect "abc" ⟨some cpA, none⟩ cpA
    (by simp [projDirect]) rfl

theorem loadCheckpoint_experiment_best_latest_witness :
    loadCheckpoint projBest "exp1" =
      some (Except.ok cpA, [bestPickMsg "exp1"]) ∧
    loadCheckpoint projLatest "exp1" =
      some (Except.ok cpA, [latestPickMsg "exp1"]) :=
  ⟨(loadCheckpoint_experiment_best_latest projBest "exp1" objExpA expA
      rfl rfl rfl).1 cpA rfl,
   (loadCheckpoint_experiment_best_latest projLatest "exp1" objExpA expA
      rfl rfl rfl).2 cpA rfl rfl⟩

theorem loadCheckpoint_empty_experiment_error_witness :
    ∃ pre post log, loadCheckpoint projEmpty "exp1" =
      some (Except.error (pre ++ expA.shortID ++ post), log) :=
  loadCheckpoint_empty_experiment_error projEmpty "exp1" objExpA expA
    rfl rfl rfl rfl rfl

theorem printDiff_error_no_output_witness :
    printDiff projDirect "zzz" "abc" =
      some (Except.error ("prefix not found: " ++ "zzz"), []) :=
  (printDiff_error_no_output projDirect "zzz" "abc").1
    ("prefix not found: " ++ "zzz") [] (by simp [loadCheckpoint, projDirect])

theorem mapString_self_empty_witness :
    mapString [("a", "1"), ("b", "2")] [("a", "1"), ("b", "2")] = [] :=
  mapString_self_empty [("a", "1"), ("b", "2")] (by decide)

theorem mapString_swap_symm_witness :
    alookup "a" (mapString [("a", "1")] [("b", "2")]) =
      Option.map swapPair (alookup "a" (mapString [("b", "2")] [("a", "1")])) :=
  mapString_swap_symm [("a", "1")] [("b", "2")] (by decide) (by decide) "a"
    (Or.inl (by decide))

theorem printMapDiff_sorted_deterministic_witness :
    List.Pairwise (fun a b : String => a < b)
      (rowKeys (printMapDiff [("b", "2"), ("a", "1")] [])) ∧
    printMapDiffFrom [("a", [some "1", none]), ("b", [some "2", none])] =
      printMapDiff [("b", "2"), ("a", "1")] [] :=
  ⟨(printMapDiff_sorted_deterministic [("b", "2"), ("a", "1")] []
      (by decide) (by decide)).1,
   (printMapDiff_sorted_deterministic [("b", "2"), ("a", "1")] []
      (by decide) (by decide)).2
     [("a", [some "1", none]), ("b", [some "2", none])] (by decide)⟩

theorem printMapDiff_empty_placeholder_witness :
    printMapDiff [("a", "1")] [("a", "1")] = [Line.noDifference] ∧
    Line.noDifference ∉ printMapDiff [("a", "1")] [("a", "2")] :=
  ⟨(printMapDiff_empty_placeholder [("a", "1")] [("a", "1")]).1 (by decide),
   (printMapDiff_empty_placeholder [("a", "1")] [("a", "2")]).2 (by decide)⟩

theorem mapString_entry_shape_witness :
    ([some "1", none] : List (Option String)).length = 2 ∧
    ¬(([some "1", none] : List (Option String)).getD 0 none = none ∧
      ([some "1", none] : List (Option String)).getD 1 none = none) :=
  mapString_entry_shape [("a", "1")] [] "a" [some "1", none] (by decide)

end Replicate
